import Mathlib

/-!
Shallow embedding of the validation-and-dispatch layer of
`src/openmmapi/src/GayBerneForceImpl.cpp` (OpenMM's `GayBerneForceImpl`).

The data model mirrors the force-field description consumed by
`GayBerneForceImpl::initialize`: per-particle Gay-Berne parameters,
pairwise exceptions, the nonbonded method, cutoff/switching settings and
the force group.  C++ `double` values are modelled as `Rat` (the
validator only compares them against `0`, against each other, and
against `0.5 * box component`, all of which are exact comparisons);
C++ `int` particle indices are modelled as `Int` (the value `-1` is
meaningful for frame particles).
-/

/-- One particle's Gay-Berne parameters, as returned by
`GayBerneForce::getParticleParameters`. -/
structure GBParticle where
  sigma : Rat
  epsilon : Rat
  xparticle : Int
  yparticle : Int
  rx : Rat
  ry : Rat
  rz : Rat
  ex : Rat
  ey : Rat
  ez : Rat
deriving DecidableEq, Repr

/-- One pairwise exception, as returned by
`GayBerneForce::getExceptionParameters`. -/
structure GBException where
  particle1 : Int
  particle2 : Int
  sigma : Rat
  epsilon : Rat
deriving DecidableEq, Repr

/-- `GayBerneForce::NonbondedMethod`. -/
inductive NonbondedMethod where
  | NoCutoff
  | CutoffNonPeriodic
  | CutoffPeriodic
deriving DecidableEq, Repr

/-- The force-field description owned by the `GayBerneForce` object
(`owner` in the C++ source).  `owner.getNumParticles()` is
`particles.length`, `owner.getNumExceptions()` is `exceptions.length`. -/
structure GayBerneForce where
  particles : List GBParticle
  exceptions : List GBException
  nonbondedMethod : NonbondedMethod
  cutoffDistance : Rat
  useSwitchingFunction : Bool
  switchingDistance : Rat
  forceGroup : Nat
deriving DecidableEq, Repr

/-- A 3-vector of the periodic box (`Vec3` in the source). -/
structure Vec3 where
  x : Rat
  y : Rat
  z : Rat
deriving DecidableEq, Repr

/-- The three default periodic box vectors returned by
`System::getDefaultPeriodicBoxVectors`. -/
structure PeriodicBox where
  v0 : Vec3
  v1 : Vec3
  v2 : Vec3
deriving DecidableEq, Repr

/-- The violations that `GayBerneForceImpl::initialize` can report, one
constructor per distinct `OpenMMException` message in the source; each
carries exactly the data that the corresponding message interpolates. -/
inductive Violation where
  | particleCountMismatch
  | invalidSwitchingDistance
  | illegalXParticleIndex (xparticle : Int)
  | illegalYParticleIndex (yparticle : Int)
  | negativeParticleSigma
  | negativeParticleEpsilon
  | nonpositiveRadii
  | nonpositiveScaleFactors
  | illegalExceptionIndex (particle : Int)
  | duplicateException (particle0 particle1 : Int)
  | negativeExceptionSigma
  | negativeExceptionEpsilon
  | cutoffTooLarge
deriving DecidableEq, Repr

/-- Lines 55-56: the particle-count check. -/
def checkParticleCount (f : GayBerneForce) (systemNumParticles : Nat) :
    Option Violation :=
  if f.particles.length ≠ systemNumParticles then
    some Violation.particleCountMismatch
  else
    none

/-- Lines 57-60: the switching-distance check, only performed when
`getUseSwitchingFunction()` is true. -/
def checkSwitching (f : GayBerneForce) : Option Violation :=
  if f.useSwitchingFunction then
    if f.switchingDistance < 0 ∨ f.switchingDistance ≥ f.cutoffDistance then
      some Violation.invalidSwitchingDistance
    else
      none
  else
    none

/-- Lines 65-84: the per-particle checks, in source order: xparticle
bounds, yparticle bounds, sigma, epsilon, radii, scale factors. -/
def checkParticle (numParticles : Int) (p : GBParticle) : Option Violation :=
  if p.xparticle < -1 ∨ p.xparticle ≥ numParticles then
    some (Violation.illegalXParticleIndex p.xparticle)
  else if p.yparticle < -1 ∨ p.yparticle ≥ numParticles then
    some (Violation.illegalYParticleIndex p.yparticle)
  else if p.sigma < 0 then
    some Violation.negativeParticleSigma
  else if p.epsilon < 0 then
    some Violation.negativeParticleEpsilon
  else if p.rx ≤ 0 ∨ p.ry ≤ 0 ∨ p.rz ≤ 0 then
    some Violation.nonpositiveRadii
  else if p.ex ≤ 0 ∨ p.ey ≤ 0 ∨ p.ez ≤ 0 then
    some Violation.nonpositiveScaleFactors
  else
    none

/-- Lines 61-85: the particle loop; the first failing particle's
violation is thrown. -/
def checkParticles (numParticles : Int) (ps : List GBParticle) :
    Option Violation :=
  ps.findSome? (checkParticle numParticles)

/-- Lines 87-113: the exception loop.  `seen` models the
`vector<set<int>> exceptions` structure flattened to directed pairs:
the source inserts both `(p0,p1)` and `(p1,p0)` after each accepted
exception and tests membership in both directions. -/
def checkExceptionsAux (numParticles : Int) (seen : List (Int × Int)) :
    List GBException → Option Violation
  | [] => none
  | e :: rest =>
    if e.particle1 < 0 ∨ e.particle1 ≥ numParticles then
      some (Violation.illegalExceptionIndex e.particle1)
    else if e.particle2 < 0 ∨ e.particle2 ≥ numParticles then
      some (Violation.illegalExceptionIndex e.particle2)
    else if (e.particle1, e.particle2) ∈ seen ∨ (e.particle2, e.particle1) ∈ seen then
      some (Violation.duplicateException e.particle1 e.particle2)
    else if e.sigma < 0 then
      some Violation.negativeExceptionSigma
    else if e.epsilon < 0 then
      some Violation.negativeExceptionEpsilon
    else
      checkExceptionsAux numParticles
        ((e.particle1, e.particle2) :: (e.particle2, e.particle1) :: seen) rest

/-- Lines 86-113: the exception checks start with an empty `seen`
structure. -/
def checkExceptions (numParticles : Int) (es : List GBException) :
    Option Violation :=
  checkExceptionsAux numParticles [] es

/-- Lines 114-120: the periodic-cutoff check, only performed when
`getNonbondedMethod() == CutoffPeriodic`; the cutoff is compared
against each box vector's own principal component. -/
def checkPeriodicCutoff (f : GayBerneForce) (box : PeriodicBox) :
    Option Violation :=
  if f.nonbondedMethod = NonbondedMethod.CutoffPeriodic then
    if f.cutoffDistance > (1/2 : Rat) * box.v0.x ∨
        f.cutoffDistance > (1/2 : Rat) * box.v1.y ∨
        f.cutoffDistance > (1/2 : Rat) * box.v2.z then
      some Violation.cutoffTooLarge
    else
      none
  else
    none

/-- Lines 54-120 of `GayBerneForceImpl::initialize`: all validation
checks in source order; the first violation is thrown. -/
def validate (f : GayBerneForce) (systemNumParticles : Nat)
    (box : PeriodicBox) : Option Violation :=
  match checkParticleCount f systemNumParticles with
  | some v => some v
  | none =>
    match checkSwitching f with
    | some v => some v
    | none =>
      match checkParticles (f.particles.length : Int) f.particles with
      | some v => some v
      | none =>
        match checkExceptions (f.particles.length : Int) f.exceptions with
        | some v => some v
        | none => checkPeriodicCutoff f box

/-!  Dispatcher model.

`GayBerneForceImpl` owns one kernel handle (`Kernel kernel` member).
A handle is created by `Platform::createKernel` (line 50) and becomes
initialized only when `kernel.initialize(...)` runs (line 121); a C++
exception thrown between the two leaves the member holding the created,
uninitialized handle.
-/

/-- A backend kernel handle: its platform-assigned identity and whether
`initialize` has run on it. -/
structure KernelHandle where
  id : Nat
  initialized : Bool
deriving DecidableEq, Repr

/-- The `GayBerneForceImpl` object: the owning force description and the
`kernel` member (`none` before `initialize` is first called). -/
structure Dispatcher where
  owner : GayBerneForce
  kernel : Option KernelHandle
deriving DecidableEq, Repr

/-- The dispatcher is Bound: it holds a kernel handle on which
`initialize` has completed. -/
def Dispatcher.isBound (d : Dispatcher) : Prop :=
  ∃ k, d.kernel = some k ∧ k.initialized = true

/-- The simulation-side state read by `initialize`: the `System`'s
particle count and default periodic box vectors. -/
structure SystemState where
  numParticles : Nat
  box : PeriodicBox
deriving DecidableEq, Repr

/-- `GayBerneForceImpl::initialize` (lines 49-122).  `freshId` is the
identity of the handle the platform's `createKernel` returns.  The
kernel member is assigned first (line 50); validation follows; a
violation is thrown before `kernel.initialize` (line 121) runs, leaving
the member holding the created, uninitialized handle.  Returns the
post-call dispatcher state and the thrown violation, if any. -/
def GayBerneForceImpl.setup (d : Dispatcher) (sys : SystemState)
    (freshId : Nat) : Dispatcher × Option Violation :=
  let d1 : Dispatcher := { d with kernel := some { id := freshId, initialized := false } }
  match validate d.owner sys.numParticles sys.box with
  | some v => (d1, some v)
  | none => ({ d1 with kernel := some { id := freshId, initialized := true } }, none)

/-- `GayBerneForceImpl::calcForcesAndEnergy` (lines 124-128), with the
opaque kernel's `execute` abstracted as `kexec`, acting on an abstract
shared force buffer of type `β` and returning the scalar energy.
Returns the energy, the resulting buffer, and how many times the kernel
was invoked. -/
def GayBerneForceImpl.calcForcesAndEnergy {β : Type} (d : Dispatcher)
    (kexec : Bool → Bool → β → Rat × β)
    (includeForces includeEnergy : Bool) (groups : Nat) (buf : β) :
    Rat × β × Nat :=
  if groups &&& (1 <<< d.owner.forceGroup) ≠ 0 then
    let r := kexec includeForces includeEnergy buf
    (r.1, r.2, 1)
  else
    (0, buf, 0)

/-- The context-side state touched by `updateParametersInContext`: the
kernel's cached parameter copy, how many times
`copyParametersToContext` ran, and how many times
`ContextImpl::systemChanged` was called. -/
structure ContextState where
  kernelParams : Option GayBerneForce
  refreshCount : Nat
  systemChangedCount : Nat
deriving DecidableEq, Repr

/-- The observable calls `updateParametersInContext` makes, in order. -/
inductive UpdateEvent where
  | refreshParameters
  | systemChanged
deriving DecidableEq, Repr

/-- `GayBerneForceImpl::updateParametersInContext` (lines 136-139): it
calls `kernel.copyParametersToContext(context, owner)` and then
`context.systemChanged()`, nothing else — in particular it runs no
validation.  Returns the dispatcher (untouched), the new context state,
and the ordered event trace. -/
def GayBerneForceImpl.updateParametersInContext (d : Dispatcher)
    (ctx : ContextState) : Dispatcher × ContextState × List UpdateEvent :=
  let ctx1 : ContextState :=
    { ctx with kernelParams := some d.owner, refreshCount := ctx.refreshCount + 1 }
  let ctx2 : ContextState :=
    { ctx1 with systemChangedCount := ctx1.systemChangedCount + 1 }
  (d, ctx2, [UpdateEvent.refreshParameters, UpdateEvent.systemChanged])

/-- `GayBerneForceImpl::getKernelNames` (lines 130-134). -/
def GayBerneForceImpl.getKernelNames : List String :=
  ["CalcGayBerneForce"]

/-!  Specification-order validator (for the fixed-order refinement).

`validateSpecOrder` restates the validator as the spec describes it in
its section 4.1: an explicit ordered list of checks — particle-count
match, switching-distance relation, per-particle checks in index order,
exception checks in declaration order with the duplicate-pair test made
against all previously seen exceptions, and the periodic-cutoff check
last — of which the first failure is reported.
-/

/-- The spec-side check of one exception `e`, with `front` the
exceptions declared before it: bounds for the first index, bounds for
the second index, duplicate-unordered-pair test against `front`, then
the sign checks. -/
def specExcCheck (numParticles : Int) (front : List GBException)
    (e : GBException) : Option Violation :=
  if e.particle1 < 0 ∨ e.particle1 ≥ numParticles then
    some (Violation.illegalExceptionIndex e.particle1)
  else if e.particle2 < 0 ∨ e.particle2 ≥ numParticles then
    some (Violation.illegalExceptionIndex e.particle2)
  else if ∃ e2 ∈ front, (e2.particle1 = e.particle1 ∧ e2.particle2 = e.particle2) ∨
      (e2.particle1 = e.particle2 ∧ e2.particle2 = e.particle1) then
    some (Violation.duplicateException e.particle1 e.particle2)
  else if e.sigma < 0 then
    some Violation.negativeExceptionSigma
  else if e.epsilon < 0 then
    some Violation.negativeExceptionEpsilon
  else
    none

/-- The spec-side exception checks, in declaration order, each against
the exceptions declared before it. -/
def specExceptionChecks (numParticles : Int) (front : List GBException) :
    List GBException → List (Option Violation)
  | [] => []
  | e :: rest =>
    specExcCheck numParticles front e ::
      specExceptionChecks numParticles (front ++ [e]) rest

/-- The full ordered list of checks, as the spec words them. -/
def specOrderChecks (f : GayBerneForce) (systemNumParticles : Nat)
    (box : PeriodicBox) : List (Option Violation) :=
  checkParticleCount f systemNumParticles ::
    checkSwitching f ::
    (f.particles.map (checkParticle (f.particles.length : Int)) ++
      specExceptionChecks (f.particles.length : Int) [] f.exceptions ++
      [checkPeriodicCutoff f box])

/-- The spec-side validator: the first failing check in the fixed
order. -/
def validateSpecOrder (f : GayBerneForce) (systemNumParticles : Nat)
    (box : PeriodicBox) : Option Violation :=
  (specOrderChecks f systemNumParticles box).findSome? id

/-!  Helper lemmas about `List.findSome?`. -/

theorem findSome?_id_cons {α : Type} (a : Option α) (l : List (Option α)) :
    (a :: l).findSome? id = match a with
      | some v => some v
      | none => l.findSome? id := by
  cases a <;> simp [List.findSome?]

theorem findSome?_id_append_none {α : Type} {l1 : List (Option α)}
    (l2 : List (Option α)) (h : l1.findSome? id = none) :
    (l1 ++ l2).findSome? id = l2.findSome? id := by
  induction l1 with
  | nil => simp
  | cons a l ih =>
    cases a with
    | none =>
      simp only [List.cons_append, List.findSome?_cons, id] at h ⊢
      exact ih h
    | some v => exact absurd h (by simp [List.findSome?_cons])

theorem findSome?_id_append_some {α : Type} {l1 : List (Option α)}
    (l2 : List (Option α)) {v : α} (h : l1.findSome? id = some v) :
    (l1 ++ l2).findSome? id = some v := by
  induction l1 with
  | nil => simp [List.findSome?] at h
  | cons a l ih =>
    cases a with
    | none =>
      simp only [List.cons_append, List.findSome?_cons, id] at h ⊢
      exact ih h
    | some w =>
      simp only [List.cons_append, List.findSome?_cons, id] at h ⊢
      exact h

theorem findSome?_map_id {α β : Type} (g : α → Option β) (l : List α) :
    (l.map g).findSome? id = l.findSome? g := by
  induction l with
  | nil => rfl
  | cons a l ih =>
    cases h : g a <;> simp [List.findSome?, h, ih]

/-!  Unfolding lemmas for `validate`. -/

theorem validate_of_count_some {f : GayBerneForce} {n : Nat} (box : PeriodicBox)
    {v : Violation} (h : checkParticleCount f n = some v) :
    validate f n box = some v := by
  unfold validate
  rw [h]

theorem validate_of_switching_some {f : GayBerneForce} {n : Nat} (box : PeriodicBox)
    {v : Violation} (h1 : checkParticleCount f n = none)
    (h2 : checkSwitching f = some v) :
    validate f n box = some v := by
  unfold validate
  rw [h1, h2]

theorem validate_of_particles_some {f : GayBerneForce} {n : Nat} (box : PeriodicBox)
    {v : Violation} (h1 : checkParticleCount f n = none)
    (h2 : checkSwitching f = none)
    (h3 : checkParticles (f.particles.length : Int) f.particles = some v) :
    validate f n box = some v := by
  unfold validate
  rw [h1, h2, h3]

theorem validate_of_exceptions_some {f : GayBerneForce} {n : Nat} (box : PeriodicBox)
    {v : Violation} (h1 : checkParticleCount f n = none)
    (h2 : checkSwitching f = none)
    (h3 : checkParticles (f.particles.length : Int) f.particles = none)
    (h4 : checkExceptions (f.particles.length : Int) f.exceptions = some v) :
    validate f n box = some v := by
  unfold validate
  rw [h1, h2, h3, h4]

theorem validate_of_all_none {f : GayBerneForce} {n : Nat} (box : PeriodicBox)
    (h1 : checkParticleCount f n = none)
    (h2 : checkSwitching f = none)
    (h3 : checkParticles (f.particles.length : Int) f.particles = none)
    (h4 : checkExceptions (f.particles.length : Int) f.exceptions = none) :
    validate f n box = checkPeriodicCutoff f box := by
  unfold validate
  rw [h1, h2, h3, h4]

theorem validate_none_exceptions {f : GayBerneForce} {n : Nat} {box : PeriodicBox}
    (h : validate f n box = none) :
    checkExceptions (f.particles.length : Int) f.exceptions = none := by
  unfold validate at h
  split at h
  · exact absurd h (by simp)
  · split at h
    · exact absurd h (by simp)
    · split at h
      · exact absurd h (by simp)
      · split at h
        · exact absurd h (by simp)
        · assumption

/-!  Which violations each check can produce. -/

theorem checkParticle_some_kind {numParticles : Int} {p : GBParticle}
    {v : Violation} (h : checkParticle numParticles p = some v) :
    v ≠ Violation.invalidSwitchingDistance ∧ v ≠ Violation.particleCountMismatch := by
  unfold checkParticle at h
  split at h
  · cases h; exact ⟨by simp, by simp⟩
  · split at h
    · cases h; exact ⟨by simp, by simp⟩
    · split at h
      · cases h; exact ⟨by simp, by simp⟩
      · split at h
        · cases h; exact ⟨by simp, by simp⟩
        · split at h
          · cases h; exact ⟨by simp, by simp⟩
          · split at h
            · cases h; exact ⟨by simp, by simp⟩
            · cases h

theorem checkParticles_some_kind {numParticles : Int} {v : Violation} :
    ∀ {ps : List GBParticle}, checkParticles numParticles ps = some v →
    v ≠ Violation.invalidSwitchingDistance ∧ v ≠ Violation.particleCountMismatch := by
  intro ps
  induction ps with
  | nil => intro h; simp [checkParticles, List.findSome?] at h
  | cons p rest ih =>
    intro h
    unfold checkParticles at h ih
    rw [List.findSome?_cons] at h
    cases hp : checkParticle numParticles p with
    | some w =>
      rw [hp] at h
      cases h
      exact checkParticle_some_kind hp
    | none =>
      rw [hp] at h
      exact ih h

theorem checkExceptionsAux_some_kind {numParticles : Int} {v : Violation} :
    ∀ {es : List GBException} {seen : List (Int × Int)},
    checkExceptionsAux numParticles seen es = some v →
    v ≠ Violation.invalidSwitchingDistance ∧ v ≠ Violation.particleCountMismatch := by
  intro es
  induction es with
  | nil => intro seen h; simp [checkExceptionsAux] at h
  | cons e rest ih =>
    intro seen h
    unfold checkExceptionsAux at h
    split at h
    · cases h; exact ⟨by simp, by simp⟩
    · split at h
      · cases h; exact ⟨by simp, by simp⟩
      · split at h
        · cases h; exact ⟨by simp, by simp⟩
        · split at h
          · cases h; exact ⟨by simp, by simp⟩
          · split at h
            · cases h; exact ⟨by simp, by simp⟩
            · exact ih h

theorem checkPeriodicCutoff_some_kind {f : GayBerneForce} {box : PeriodicBox}
    {v : Violation} (h : checkPeriodicCutoff f box = some v) :
    v = Violation.cutoffTooLarge := by
  unfold checkPeriodicCutoff at h
  split at h
  · split at h
    · cases h; rfl
    · cases h
  · cases h

/-!  Equivalence of the source's seen-set duplicate detection with the
spec's check-against-previous-exceptions formulation. -/

theorem checkExceptionsAux_eq_spec (numParticles : Int) :
    ∀ (rest : List GBException) (seen : List (Int × Int)) (front : List GBException),
    (∀ a b : Int, ((a, b) ∈ seen ∨ (b, a) ∈ seen) ↔
      ∃ e2 ∈ front, (e2.particle1 = a ∧ e2.particle2 = b) ∨
        (e2.particle1 = b ∧ e2.particle2 = a)) →
    checkExceptionsAux numParticles seen rest =
      (specExceptionChecks numParticles front rest).findSome? id := by
  intro rest
  induction rest with
  | nil => intro seen front _; rfl
  | cons e rest ih =>
    intro seen front hmem
    unfold checkExceptionsAux specExceptionChecks specExcCheck
    rw [List.findSome?_cons]
    by_cases hb1 : e.particle1 < 0 ∨ e.particle1 ≥ numParticles
    · rw [if_pos hb1, if_pos hb1]; rfl
    · rw [if_neg hb1, if_neg hb1]
      by_cases hb2 : e.particle2 < 0 ∨ e.particle2 ≥ numParticles
      · rw [if_pos hb2, if_pos hb2]; rfl
      · rw [if_neg hb2, if_neg hb2]
        by_cases hdup : (e.particle1, e.particle2) ∈ seen ∨ (e.particle2, e.particle1) ∈ seen
        · rw [if_pos hdup, if_pos ((hmem e.particle1 e.particle2).mp hdup)]; rfl
        · rw [if_neg hdup, if_neg (fun hc => hdup ((hmem e.particle1 e.particle2).mpr hc))]
          by_cases hs : e.sigma < 0
          · rw [if_pos hs, if_pos hs]; rfl
          · rw [if_neg hs, if_neg hs]
            by_cases he : e.epsilon < 0
            · rw [if_pos he, if_pos he]; rfl
            · rw [if_neg he, if_neg he]
              refine ih _ (front ++ [e]) ?_
              intro a b
              constructor
              · intro hab
                rcases hab with hab | hab
                · rcases List.mem_cons.mp hab with hq | hq
                  · exact ⟨e, by simp, Or.inl ⟨(Prod.mk.injEq _ _ _ _ ▸ hq).1.symm,
                      (Prod.mk.injEq _ _ _ _ ▸ hq).2.symm⟩⟩
                  · rcases List.mem_cons.mp hq with hq2 | hq2
                    · exact ⟨e, by simp, Or.inr ⟨(Prod.mk.injEq _ _ _ _ ▸ hq2).2.symm,
                        (Prod.mk.injEq _ _ _ _ ▸ hq2).1.symm⟩⟩
                    · obtain ⟨e2, he2, hp⟩ := (hmem a b).mp (Or.inl hq2)
                      exact ⟨e2, List.mem_append_left _ he2, hp⟩
                · rcases List.mem_cons.mp hab with hq | hq
                  · exact ⟨e, by simp, Or.inr ⟨(Prod.mk.injEq _ _ _ _ ▸ hq).1.symm,
                      (Prod.mk.injEq _ _ _ _ ▸ hq).2.symm⟩⟩
                  · rcases List.mem_cons.mp hq with hq2 | hq2
                    · exact ⟨e, by simp, Or.inl ⟨(Prod.mk.injEq _ _ _ _ ▸ hq2).2.symm,
                        (Prod.mk.injEq _ _ _ _ ▸ hq2).1.symm⟩⟩
                    · obtain ⟨e2, he2, hp⟩ := (hmem a b).mp (Or.inr hq2)
                      exact ⟨e2, List.mem_append_left _ he2, hp⟩
              · rintro ⟨e2, he2, hp⟩
                rcases List.mem_append.mp he2 with he2f | he2e
                · rcases (hmem a b).mpr ⟨e2, he2f, hp⟩ with hq | hq
                  · exact Or.inl (List.mem_cons_of_mem _ (List.mem_cons_of_mem _ hq))
                  · exact Or.inr (List.mem_cons_of_mem _ (List.mem_cons_of_mem _ hq))
                · have he2eq : e2 = e := List.mem_singleton.mp he2e
                  subst he2eq
                  rcases hp with ⟨hpa, hpb⟩ | ⟨hpa, hpb⟩
                  · exact Or.inl (by rw [← hpa, ← hpb]; exact List.mem_cons_self _ _)
                  · exact Or.inr (by rw [← hpa, ← hpb]; exact List.mem_cons_self _ _)

/-- The source validator equals the spec-ordered validator. -/
theorem validate_eq_validateSpecOrder (f : GayBerneForce)
    (systemNumParticles : Nat) (box : PeriodicBox) :
    validate f systemNumParticles box =
      validateSpecOrder f systemNumParticles box := by
  have hexc : checkExceptions (f.particles.length : Int) f.exceptions =
      (specExceptionChecks (f.particles.length : Int) [] f.exceptions).findSome? id := by
    refine checkExceptionsAux_eq_spec _ _ _ _ ?_
    intro a b
    simp
  unfold validate validateSpecOrder specOrderChecks
  rw [findSome?_id_cons]
  cases h1 : checkParticleCount f systemNumParticles with
  | some v => rfl
  | none =>
    rw [findSome?_id_cons]
    cases h2 : checkSwitching f with
    | some v => rfl
    | none =>
      cases h3 : checkParticles (f.particles.length : Int) f.particles with
      | some v =>
        rw [List.append_assoc]
        rw [findSome?_id_append_some]
        rw [findSome?_map_id]
        exact h3
      | none =>
        rw [List.append_assoc, findSome?_id_append_none _ (by rw [findSome?_map_id]; exact h3)]
        cases h4 : checkExceptions (f.particles.length : Int) f.exceptions with
        | some v =>
          rw [findSome?_id_append_some _ (hexc.symm.trans h4)]
        | none =>
          rw [findSome?_id_append_none _ (hexc.symm.trans h4)]
          cases h5 : checkPeriodicCutoff f box <;> simp [List.findSome?]

/-!  Duplicate-pair rejection. -/

/-- `e2` names the same unordered particle pair as `e1`, in either
orientation. -/
def sameUnorderedPair (e1 e2 : GBException) : Prop :=
  (e2.particle1 = e1.particle1 ∧ e2.particle2 = e1.particle2) ∨
    (e2.particle1 = e1.particle2 ∧ e2.particle2 = e1.particle1)

/-- The per-exception checks other than the duplicate test all pass:
both indices in range and both override parameters nonnegative. -/
def excOk (numParticles : Int) (e : GBException) : Prop :=
  0 ≤ e.particle1 ∧ e.particle1 < numParticles ∧
    0 ≤ e.particle2 ∧ e.particle2 < numParticles ∧
    0 ≤ e.sigma ∧ 0 ≤ e.epsilon

instance (numParticles : Int) (e : GBException) :
    Decidable (excOk numParticles e) :=
  inferInstanceAs (Decidable (_ ∧ _ ∧ _ ∧ _ ∧ _ ∧ _))

theorem excLoop_stuck (numParticles : Int) :
    ∀ (rest : List GBException) (seen : List (Int × Int)) (a b : Int),
    ((a, b) ∈ seen ∨ (b, a) ∈ seen) →
    (∃ e ∈ rest, (e.particle1 = a ∧ e.particle2 = b) ∨
      (e.particle1 = b ∧ e.particle2 = a)) →
    checkExceptionsAux numParticles seen rest ≠ none := by
  intro rest
  induction rest with
  | nil => intro seen a b _ hex; simp at hex
  | cons e rest ih =>
    intro seen a b hseen hex
    unfold checkExceptionsAux
    by_cases hb1 : e.particle1 < 0 ∨ e.particle1 ≥ numParticles
    · rw [if_pos hb1]; simp
    · rw [if_neg hb1]
      by_cases hb2 : e.particle2 < 0 ∨ e.particle2 ≥ numParticles
      · rw [if_pos hb2]; simp
      · rw [if_neg hb2]
        by_cases hdup : (e.particle1, e.particle2) ∈ seen ∨ (e.particle2, e.particle1) ∈ seen
        · rw [if_pos hdup]; simp
        · rw [if_neg hdup]
          by_cases hs : e.sigma < 0
          · rw [if_pos hs]; simp
          · rw [if_neg hs]
            by_cases he : e.epsilon < 0
            · rw [if_pos he]; simp
            · rw [if_neg he]
              rcases hex with ⟨w, hw, hwp⟩
              rcases List.mem_cons.mp hw with hwe | hwrest
              · subst hwe
                exfalso
                rcases hwp with ⟨hp1, hp2⟩ | ⟨hp1, hp2⟩
                · rcases hseen with hq | hq
                  · exact hdup (Or.inl (by rw [hp1, hp2]; exact hq))
                  · exact hdup (Or.inr (by rw [hp1, hp2]; exact hq))
                · rcases hseen with hq | hq
                  · exact hdup (Or.inr (by rw [hp1, hp2]; exact hq))
                  · exact hdup (Or.inl (by rw [hp1, hp2]; exact hq))
              · refine ih _ a b ?_ ⟨w, hwrest, hwp⟩
                rcases hseen with hq | hq
                · exact Or.inl (List.mem_cons_of_mem _ (List.mem_cons_of_mem _ hq))
                · exact Or.inr (List.mem_cons_of_mem _ (List.mem_cons_of_mem _ hq))

theorem excLoop_dup_kind (numParticles : Int) :
    ∀ (rest : List GBException) (seen : List (Int × Int)) (a b : Int),
    ((a, b) ∈ seen ∨ (b, a) ∈ seen) →
    (∃ e ∈ rest, (e.particle1 = a ∧ e.particle2 = b) ∨
      (e.particle1 = b ∧ e.particle2 = a)) →
    (∀ e ∈ rest, excOk numParticles e) →
    ∃ a2 b2, checkExceptionsAux numParticles seen rest =
      some (Violation.duplicateException a2 b2) := by
  intro rest
  induction rest with
  | nil => intro seen a b _ hex; simp at hex
  | cons e rest ih =>
    intro seen a b hseen hex hok
    obtain ⟨hq1, hq2, hq3, hq4, hq5, hq6⟩ := hok e (List.mem_cons_self _ _)
    have hb1 : ¬(e.particle1 < 0 ∨ e.particle1 ≥ numParticles) := by omega
    have hb2 : ¬(e.particle2 < 0 ∨ e.particle2 ≥ numParticles) := by omega
    unfold checkExceptionsAux
    rw [if_neg hb1, if_neg hb2]
    by_cases hdup : (e.particle1, e.particle2) ∈ seen ∨ (e.particle2, e.particle1) ∈ seen
    · exact ⟨e.particle1, e.particle2, by rw [if_pos hdup]⟩
    · rw [if_neg hdup, if_neg (not_lt.mpr hq5), if_neg (not_lt.mpr hq6)]
      rcases hex with ⟨w, hw, hwp⟩
      rcases List.mem_cons.mp hw with hwe | hwrest
      · subst hwe
        exfalso
        rcases hwp with ⟨hp1, hp2⟩ | ⟨hp1, hp2⟩
        · rcases hseen with hq | hq
          · exact hdup (Or.inl (by rw [hp1, hp2]; exact hq))
          · exact hdup (Or.inr (by rw [hp1, hp2]; exact hq))
        · rcases hseen with hq | hq
          · exact hdup (Or.inr (by rw [hp1, hp2]; exact hq))
          · exact hdup (Or.inl (by rw [hp1, hp2]; exact hq))
      · refine ih _ a b ?_ ⟨w, hwrest, hwp⟩ (fun e2 he2 => hok e2 (List.mem_cons_of_mem _ he2))
        rcases hseen with hq | hq
        · exact Or.inl (List.mem_cons_of_mem _ (List.mem_cons_of_mem _ hq))
        · exact Or.inr (List.mem_cons_of_mem _ (List.mem_cons_of_mem _ hq))

theorem checkExceptionsAux_dup_ne_none (numParticles : Int) :
    ∀ (front : List GBException) (seen : List (Int × Int))
      (e1 : GBException) (mid : List GBException) (e2 : GBException)
      (back : List GBException),
    sameUnorderedPair e1 e2 →
    checkExceptionsAux numParticles seen (front ++ e1 :: mid ++ e2 :: back) ≠ none := by
  intro front
  induction front with
  | nil =>
    intro seen e1 mid e2 back hpair
    simp only [List.nil_append]
    simp only [checkExceptionsAux]
    by_cases hb1 : e1.particle1 < 0 ∨ e1.particle1 ≥ numParticles
    · rw [if_pos hb1]; simp
    · rw [if_neg hb1]
      by_cases hb2 : e1.particle2 < 0 ∨ e1.particle2 ≥ numParticles
      · rw [if_pos hb2]; simp
      · rw [if_neg hb2]
        by_cases hdup : (e1.particle1, e1.particle2) ∈ seen ∨
            (e1.particle2, e1.particle1) ∈ seen
        · rw [if_pos hdup]; simp
        · rw [if_neg hdup]
          by_cases hs : e1.sigma < 0
          · rw [if_pos hs]; simp
          · rw [if_neg hs]
            by_cases he : e1.epsilon < 0
            · rw [if_pos he]; simp
            · rw [if_neg he]
              refine excLoop_stuck numParticles _ _ e1.particle1 e1.particle2
                (Or.inl (List.mem_cons_self _ _))
                ⟨e2, List.mem_append_right _ (List.mem_cons_self _ _), hpair⟩
  | cons g front ih =>
    intro seen e1 mid e2 back hpair
    simp only [List.cons_append]
    simp only [checkExceptionsAux]
    by_cases hb1 : g.particle1 < 0 ∨ g.particle1 ≥ numParticles
    · rw [if_pos hb1]; simp
    · rw [if_neg hb1]
      by_cases hb2 : g.particle2 < 0 ∨ g.particle2 ≥ numParticles
      · rw [if_pos hb2]; simp
      · rw [if_neg hb2]
        by_cases hdup : (g.particle1, g.particle2) ∈ seen ∨
            (g.particle2, g.particle1) ∈ seen
        · rw [if_pos hdup]; simp
        · rw [if_neg hdup]
          by_cases hs : g.sigma < 0
          · rw [if_pos hs]; simp
          · rw [if_neg hs]
            by_cases he : g.epsilon < 0
            · rw [if_pos he]; simp
            · rw [if_neg he]
              exact ih _ e1 mid e2 back hpair

theorem checkExceptionsAux_dup_kind (numParticles : Int) :
    ∀ (front : List GBException) (seen : List (Int × Int))
      (e1 : GBException) (mid : List GBException) (e2 : GBException)
      (back : List GBException),
    sameUnorderedPair e1 e2 →
    (∀ e ∈ front ++ e1 :: mid ++ e2 :: back, excOk numParticles e) →
    ∃ a2 b2, checkExceptionsAux numParticles seen (front ++ e1 :: mid ++ e2 :: back) =
      some (Violation.duplicateException a2 b2) := by
  intro front
  induction front with
  | nil =>
    intro seen e1 mid e2 back hpair hok
    simp only [List.nil_append] at hok ⊢
    obtain ⟨hq1, hq2, hq3, hq4, hq5, hq6⟩ := hok e1 (List.mem_cons_self _ _)
    have hb1 : ¬(e1.particle1 < 0 ∨ e1.particle1 ≥ numParticles) := by omega
    have hb2 : ¬(e1.particle2 < 0 ∨ e1.particle2 ≥ numParticles) := by omega
    simp only [checkExceptionsAux]
    rw [if_neg hb1, if_neg hb2]
    by_cases hdup : (e1.particle1, e1.particle2) ∈ seen ∨
        (e1.particle2, e1.particle1) ∈ seen
    · exact ⟨e1.particle1, e1.particle2, by rw [if_pos hdup]⟩
    · rw [if_neg hdup, if_neg (not_lt.mpr hq5), if_neg (not_lt.mpr hq6)]
      refine excLoop_dup_kind numParticles _ _ e1.particle1 e1.particle2
        (Or.inl (List.mem_cons_self _ _))
        ⟨e2, List.mem_append_right _ (List.mem_cons_self _ _), hpair⟩
        (fun e he => hok e (List.mem_cons_of_mem _ he))
  | cons g front ih =>
    intro seen e1 mid e2 back hpair hok
    simp only [List.cons_append] at hok ⊢
    obtain ⟨hq1, hq2, hq3, hq4, hq5, hq6⟩ := hok g (List.mem_cons_self _ _)
    have hb1 : ¬(g.particle1 < 0 ∨ g.particle1 ≥ numParticles) := by omega
    have hb2 : ¬(g.particle2 < 0 ∨ g.particle2 ≥ numParticles) := by omega
    simp only [checkExceptionsAux]
    rw [if_neg hb1, if_neg hb2]
    by_cases hdup : (g.particle1, g.particle2) ∈ seen ∨
        (g.particle2, g.particle1) ∈ seen
    · exact ⟨g.particle1, g.particle2, by rw [if_pos hdup]⟩
    · rw [if_neg hdup, if_neg (not_lt.mpr hq5), if_neg (not_lt.mpr hq6)]
      exact ih _ e1 mid e2 back hpair (fun e he => hok e (List.mem_cons_of_mem _ he))

/-!  Further helper lemmas. -/

theorem validate_congr {f1 f2 : GayBerneForce} {n : Nat} {box1 box2 : PeriodicBox}
    (h1 : checkParticleCount f1 n = checkParticleCount f2 n)
    (h2 : checkSwitching f1 = checkSwitching f2)
    (h3 : checkParticles (f1.particles.length : Int) f1.particles =
      checkParticles (f2.particles.length : Int) f2.particles)
    (h4 : checkExceptions (f1.particles.length : Int) f1.exceptions =
      checkExceptions (f2.particles.length : Int) f2.exceptions)
    (h5 : checkPeriodicCutoff f1 box1 = checkPeriodicCutoff f2 box2) :
    validate f1 n box1 = validate f2 n box2 := by
  unfold validate
  rw [h1, h2, h3, h4, h5]

theorem checkSwitching_eq_some {f : GayBerneForce} {v : Violation}
    (h : checkSwitching f = some v) :
    f.useSwitchingFunction = true ∧
      (f.switchingDistance < 0 ∨ f.switchingDistance ≥ f.cutoffDistance) ∧
      v = Violation.invalidSwitchingDistance := by
  unfold checkSwitching at h
  by_cases hu : f.useSwitchingFunction
  · rw [if_pos hu] at h
    by_cases hbad : f.switchingDistance < 0 ∨ f.switchingDistance ≥ f.cutoffDistance
    · rw [if_pos hbad] at h
      cases h
      exact ⟨hu, hbad, rfl⟩
    · rw [if_neg hbad] at h
      cases h
  · rw [if_neg hu] at h
    cases h

theorem checkSwitching_of_bad {f : GayBerneForce}
    (hu : f.useSwitchingFunction = true)
    (hbad : f.switchingDistance < 0 ∨ f.switchingDistance ≥ f.cutoffDistance) :
    checkSwitching f = some Violation.invalidSwitchingDistance := by
  unfold checkSwitching
  rw [if_pos hu, if_pos hbad]

theorem validate_switch_source {f : GayBerneForce} {n : Nat} {box : PeriodicBox}
    (h : validate f n box = some Violation.invalidSwitchingDistance) :
    checkParticleCount f n = some Violation.invalidSwitchingDistance ∨
      checkSwitching f = some Violation.invalidSwitchingDistance := by
  unfold validate at h
  split at h
  · cases h
    exact Or.inl (by assumption)
  · split at h
    · cases h
      exact Or.inr (by assumption)
    · split at h
      · cases h
        exact absurd rfl (checkParticles_some_kind (by assumption)).1
      · split at h
        · cases h
          exact absurd rfl (checkExceptionsAux_some_kind (by assumption)).1
        · exact absurd (checkPeriodicCutoff_some_kind h) (by simp)

theorem mask_and_eq_zero_iff (groups i : Nat) :
    (groups &&& (1 <<< i) = 0) ↔ groups.testBit i = false := by
  rw [Nat.one_shiftLeft, Nat.and_two_pow]
  cases h : groups.testBit i <;> simp [Nat.pow_eq_zero]

/-!  Concrete fixtures used by the claim witnesses and counterexamples. -/

/-- A particle satisfying every per-particle invariant. -/
def okParticle : GBParticle := ⟨1, 1, -1, -1, 1, 1, 1, 1, 1, 1⟩

/-- A cubic box with edge length 1. -/
def box111 : PeriodicBox := ⟨⟨1, 0, 0⟩, ⟨0, 1, 0⟩, ⟨0, 0, 1⟩⟩

/-- A cubic box with edge length 2. -/
def box222 : PeriodicBox := ⟨⟨2, 0, 0⟩, ⟨0, 2, 0⟩, ⟨0, 0, 2⟩⟩

/-- The spec's first concrete scenario: 3 particles, particle 2 has
`sigma = -1`, all else valid. -/
def badSigmaForce : GayBerneForce :=
  { particles := [okParticle, okParticle, { okParticle with sigma := -1 }],
    exceptions := [], nonbondedMethod := NonbondedMethod.NoCutoff,
    cutoffDistance := 1, useSwitchingFunction := false,
    switchingDistance := 0, forceGroup := 0 }

/-- A simulation with 3 particles. -/
def sys3 : SystemState := ⟨3, box111⟩

/-- One valid particle and a single exception whose two indices are the
same in-range particle. -/
def selfPairForce : GayBerneForce :=
  { particles := [okParticle], exceptions := [⟨0, 0, 1, 1⟩],
    nonbondedMethod := NonbondedMethod.NoCutoff, cutoffDistance := 1,
    useSwitchingFunction := false, switchingDistance := 0, forceGroup := 0 }

/-- A description violating both the switching-distance rule
(`switchingDistance = 2 ≥ cutoffDistance = 1`) and the per-particle
sigma rule (`sigma = -1`). -/
def bothBadForce : GayBerneForce :=
  { particles := [{ okParticle with sigma := -1 }], exceptions := [],
    nonbondedMethod := NonbondedMethod.NoCutoff, cutoffDistance := 1,
    useSwitchingFunction := true, switchingDistance := 2, forceGroup := 0 }

/-- The spec's second concrete scenario: periodic cutoff with
`cutoffDistance = 1.5` (so too large for a box of edge 2). -/
def periodicForce : GayBerneForce :=
  { particles := [okParticle], exceptions := [],
    nonbondedMethod := NonbondedMethod.CutoffPeriodic, cutoffDistance := 3/2,
    useSwitchingFunction := false, switchingDistance := 0, forceGroup := 0 }

/-- A description with switching enabled and a negative switching
distance, all else valid. -/
def switchBadForce : GayBerneForce :=
  { particles := [okParticle], exceptions := [],
    nonbondedMethod := NonbondedMethod.NoCutoff, cutoffDistance := 1,
    useSwitchingFunction := true, switchingDistance := -1, forceGroup := 0 }

/-- A fully valid one-particle description. -/
def simpleValidForce : GayBerneForce :=
  { particles := [okParticle], exceptions := [],
    nonbondedMethod := NonbondedMethod.NoCutoff, cutoffDistance := 1,
    useSwitchingFunction := false, switchingDistance := 0, forceGroup := 0 }

/-- A Bound dispatcher whose description has become invalid
(particle 2 has `sigma = -1`). -/
def boundBadDispatcher : Dispatcher := ⟨badSigmaForce, some ⟨1, true⟩⟩

/-- A Bound dispatcher with a valid description. -/
def boundOkDispatcher : Dispatcher := ⟨simpleValidForce, some ⟨2, true⟩⟩

/-- An initial context state. -/
def ctx0 : ContextState := ⟨none, 0, 0⟩

/-!  Claim C1. -/

/-- C1 is false as stated: in the claim's own scenario (3 particles,
particle 2 has `sigma = -1`, all else valid) setup does fail with the
sigma violation, but afterwards the dispatcher holds a kernel handle —
`createKernel` at line 50 runs before any validation, contradicting
"setup fails before any backend kernel handle is created ... the
dispatcher holds no kernel". -/
theorem claim_C1_counterexample :
    (GayBerneForceImpl.setup ⟨badSigmaForce, none⟩ sys3 7).2 =
      some Violation.negativeParticleSigma ∧
    (GayBerneForceImpl.setup ⟨badSigmaForce, none⟩ sys3 7).1.kernel ≠ none := by
  decide

/-- C1 (amended): for every description that violates any of invariants
1-6, setup fails with the validator's diagnostic before the kernel is
initialized; however the backend kernel handle is created at the start
of setup, before validation, so after the failed setup the dispatcher
holds the created, never-initialized kernel handle (it is kernel
initialization, not handle creation, that the failure prevents). -/
theorem claim_C1 (d : Dispatcher) (sys : SystemState) (freshId : Nat)
    (v : Violation)
    (h : validate d.owner sys.numParticles sys.box = some v) :
    GayBerneForceImpl.setup d sys freshId =
      ({ d with kernel := some { id := freshId, initialized := false } }, some v) := by
  unfold GayBerneForceImpl.setup
  rw [h]

theorem claim_C1_witness :
    validate (Dispatcher.mk badSigmaForce none).owner sys3.numParticles sys3.box =
      some Violation.negativeParticleSigma ∧
    GayBerneForceImpl.setup ⟨badSigmaForce, none⟩ sys3 7 =
      (⟨badSigmaForce, some ⟨7, false⟩⟩, some Violation.negativeParticleSigma) := by
  have hv : validate (Dispatcher.mk badSigmaForce none).owner sys3.numParticles
      sys3.box = some Violation.negativeParticleSigma := by decide
  exact ⟨hv, claim_C1 _ _ 7 _ hv⟩

/-!  Claim C2. -/

/-- C2 is false as stated: for a Bound dispatcher whose description now
violates invariant 3 (particle 2 has `sigma = -1`, so setup's validation
would fail with that diagnostic), `updateParametersInContext` does not
fail, performs no re-validation, and does refresh the kernel's
parameters, contradicting "applyUpdate fails with the same diagnostic
that setup would produce, and the kernel's parameters are not
refreshed". -/
theorem claim_C2_counterexample :
    validate boundBadDispatcher.owner 3 box111 =
      some Violation.negativeParticleSigma ∧
    GayBerneForceImpl.updateParametersInContext boundBadDispatcher ctx0 =
      (boundBadDispatcher, ⟨some badSigmaForce, 1, 1⟩,
        [UpdateEvent.refreshParameters, UpdateEvent.systemChanged]) := by
  exact ⟨by decide, rfl⟩

/-- C2 (amended): `updateParametersInContext` performs no re-validation
at all: even when the current description violates invariants 1-6 (the
validator reports a violation), the call succeeds, unconditionally
refreshes the kernel's parameter copy, and then notifies the context. -/
theorem claim_C2 (d : Dispatcher) (ctx : ContextState) (n : Nat)
    (box : PeriodicBox) (v : Violation) (hbound : d.isBound)
    (hinvalid : validate d.owner n box = some v) :
    GayBerneForceImpl.updateParametersInContext d ctx =
      (d, { kernelParams := some d.owner, refreshCount := ctx.refreshCount + 1,
            systemChangedCount := ctx.systemChangedCount + 1 },
        [UpdateEvent.refreshParameters, UpdateEvent.systemChanged]) := rfl

theorem claim_C2_witness :
    boundBadDispatcher.isBound ∧
    validate boundBadDispatcher.owner 3 box111 =
      some Violation.negativeParticleSigma ∧
    GayBerneForceImpl.updateParametersInContext boundBadDispatcher ctx0 =
      (boundBadDispatcher,
        { kernelParams := some boundBadDispatcher.owner,
          refreshCount := ctx0.refreshCount + 1,
          systemChangedCount := ctx0.systemChangedCount + 1 },
        [UpdateEvent.refreshParameters, UpdateEvent.systemChanged]) := by
  have hb : boundBadDispatcher.isBound := ⟨⟨1, true⟩, rfl, rfl⟩
  have hv : validate boundBadDispatcher.owner 3 box111 =
      some Violation.negativeParticleSigma := by decide
  exact ⟨hb, hv, claim_C2 boundBadDispatcher ctx0 3 box111 _ hb hv⟩

/-!  Claim C3. -/

/-- C3 is false as stated: a description containing an exception whose
two particle indices are equal (both in range) is not rejected — this
one passes validation outright, because the source checks each index's
bounds but never that the two indices differ. -/
theorem claim_C3_counterexample :
    selfPairForce.exceptions = [⟨0, 0, 1, 1⟩] ∧
    validate selfPairForce 1 box111 = none := by
  decide

/-- C3 (amended): validation does not require an exception's two
particle indices to be distinct: a description whose single exception
names the same in-range index twice, with nonnegative overrides, passes
all exception checks (only a second exception on the same pair would be
rejected, as a duplicate). -/
theorem claim_C3 (f : GayBerneForce) (n : Nat) (box : PeriodicBox)
    (A : Int) (s eps : Rat)
    (hexc : f.exceptions = [⟨A, A, s, eps⟩])
    (hA0 : 0 ≤ A) (hA : A < (f.particles.length : Int))
    (hs : 0 ≤ s) (heps : 0 ≤ eps)
    (h1 : checkParticleCount f n = none)
    (h2 : checkSwitching f = none)
    (h3 : checkParticles (f.particles.length : Int) f.particles = none)
    (h5 : checkPeriodicCutoff f box = none) :
    validate f n box = none := by
  have h4 : checkExceptions (f.particles.length : Int) f.exceptions = none := by
    rw [hexc]
    unfold checkExceptions
    simp only [checkExceptionsAux]
    rw [if_neg (by omega), if_neg (by omega),
      if_neg (by simp), if_neg (not_lt.mpr hs), if_neg (not_lt.mpr heps)]
  rw [validate_of_all_none box h1 h2 h3 h4]
  exact h5

theorem claim_C3_witness :
    selfPairForce.exceptions = [⟨0, 0, 1, 1⟩] ∧
    (0 : Int) < (selfPairForce.particles.length : Int) ∧
    validate selfPairForce 1 box111 = none := by
  refine ⟨rfl, by decide, ?_⟩
  exact claim_C3 selfPairForce 1 box111 0 1 1 rfl (by decide) (by decide)
    (by decide) (by decide) (by decide) (by decide) (by decide) (by decide)

/-!  Claim C4. -/

/-- C4: validation reports exactly the first violation encountered under
the fixed order (particle-count match; switching-distance relation;
per-particle checks in index order with xparticle, yparticle, sigma,
epsilon, radii, scale factors; exception checks in declaration order
with first-index bounds, second-index bounds, duplicate-pair against all
previously seen exceptions, sigma, epsilon; periodic-cutoff check last):
the source validator equals the spec-ordered first-failure validator,
and in particular a description violating both the switching-distance
rule and a per-particle sigma rule reports the switching-distance
violation. -/
theorem claim_C4 :
    (∀ (f : GayBerneForce) (n : Nat) (box : PeriodicBox),
      validate f n box = validateSpecOrder f n box) ∧
    (∀ (f : GayBerneForce) (n : Nat) (box : PeriodicBox),
      checkParticleCount f n = none →
      f.useSwitchingFunction = true →
      (f.switchingDistance < 0 ∨ f.switchingDistance ≥ f.cutoffDistance) →
      validate f n box = some Violation.invalidSwitchingDistance) := by
  refine ⟨validate_eq_validateSpecOrder, ?_⟩
  intro f n box h1 hu hbad
  exact validate_of_switching_some box h1 (checkSwitching_of_bad hu hbad)

theorem claim_C4_witness :
    checkParticleCount bothBadForce 1 = none ∧
    bothBadForce.useSwitchingFunction = true ∧
    (bothBadForce.switchingDistance < 0 ∨
      bothBadForce.switchingDistance ≥ bothBadForce.cutoffDistance) ∧
    checkParticles (bothBadForce.particles.length : Int) bothBadForce.particles =
      some Violation.negativeParticleSigma ∧
    validate bothBadForce 1 box111 = some Violation.invalidSwitchingDistance := by
  refine ⟨by decide, rfl, by decide, by decide, ?_⟩
  exact claim_C4.2 bothBadForce 1 box111 (by decide) rfl (by decide)

/-!  Claim C5. -/

/-- C5: for every Bound dispatcher, `calcForcesAndEnergy` with an
`activeGroupMask` whose bit `forceGroup` is clear returns energy 0,
leaves the shared force buffer untouched and never invokes the kernel,
regardless of the `includeForces`/`includeEnergy` flags; when the bit is
set it returns exactly the kernel's reported scalar energy (with the
kernel invoked exactly once on the buffer). -/
theorem claim_C5 {β : Type} (d : Dispatcher)
    (kexec : Bool → Bool → β → Rat × β)
    (includeForces includeEnergy : Bool) (groups : Nat) (buf : β)
    (hbound : d.isBound) :
    (groups.testBit d.owner.forceGroup = false →
      GayBerneForceImpl.calcForcesAndEnergy d kexec includeForces
        includeEnergy groups buf = (0, buf, 0)) ∧
    (groups.testBit d.owner.forceGroup = true →
      GayBerneForceImpl.calcForcesAndEnergy d kexec includeForces
        includeEnergy groups buf =
        ((kexec includeForces includeEnergy buf).1,
          (kexec includeForces includeEnergy buf).2, 1)) := by
  constructor
  · intro h
    unfold GayBerneForceImpl.calcForcesAndEnergy
    rw [if_neg (fun hne =>
      hne ((mask_and_eq_zero_iff groups d.owner.forceGroup).mpr h))]
  · intro h
    have hcond : groups &&& (1 <<< d.owner.forceGroup) ≠ 0 := by
      intro h0
      rw [(mask_and_eq_zero_iff groups d.owner.forceGroup).mp h0] at h
      cases h
    unfold GayBerneForceImpl.calcForcesAndEnergy
    rw [if_pos hcond]

theorem claim_C5_witness :
    Nat.testBit 3 2 = false ∧
    GayBerneForceImpl.calcForcesAndEnergy (β := Nat)
      ⟨{ simpleValidForce with forceGroup := 2 }, some ⟨3, true⟩⟩
      (fun _ _ b => (5, b + 3)) true true 3 10 = (0, 10, 0) ∧
    Nat.testBit 4 2 = true ∧
    GayBerneForceImpl.calcForcesAndEnergy (β := Nat)
      ⟨{ simpleValidForce with forceGroup := 2 }, some ⟨3, true⟩⟩
      (fun _ _ b => (5, b + 3)) true true 4 10 = (5, 13, 1) := by
  have hb : (Dispatcher.mk { simpleValidForce with forceGroup := 2 }
      (some ⟨3, true⟩)).isBound := ⟨⟨3, true⟩, rfl, rfl⟩
  refine ⟨by decide, ?_, by decide, ?_⟩
  · exact (claim_C5 _ (fun _ _ b => (5, b + 3)) true true 3 10 hb).1 (by decide)
  · exact (claim_C5 _ (fun _ _ b => (5, b + 3)) true true 4 10 hb).2 (by decide)

/-!  Claim C6. -/

/-- C6: whenever the exception list contains an exception and, later, a
second exception naming the same unordered pair in either orientation,
the exception checks reject the list; if every exception's bounds and
sign checks pass, the reported violation is a duplicate-exception
violation; and the full validator never accepts such a description —
pair identity is unordered. -/
theorem claim_C6 (numParticles : Int) (front mid back : List GBException)
    (e1 e2 : GBException) (hpair : sameUnorderedPair e1 e2) :
    checkExceptions numParticles (front ++ e1 :: mid ++ e2 :: back) ≠ none ∧
    ((∀ e ∈ front ++ e1 :: mid ++ e2 :: back, excOk numParticles e) →
      ∃ a b, checkExceptions numParticles (front ++ e1 :: mid ++ e2 :: back) =
        some (Violation.duplicateException a b)) ∧
    (∀ (f : GayBerneForce) (n : Nat) (box : PeriodicBox),
      f.exceptions = front ++ e1 :: mid ++ e2 :: back →
      validate f n box ≠ none) := by
  refine ⟨checkExceptionsAux_dup_ne_none numParticles front [] e1 mid e2 back hpair,
    fun hok =>
      checkExceptionsAux_dup_kind numParticles front [] e1 mid e2 back hpair hok,
    fun f n box hfe hnone => ?_⟩
  have h4 := validate_none_exceptions hnone
  rw [hfe] at h4
  exact checkExceptionsAux_dup_ne_none (f.particles.length : Int)
    front [] e1 mid e2 back hpair h4

theorem claim_C6_witness :
    sameUnorderedPair ⟨0, 1, 1, 1⟩ ⟨1, 0, 2, 2⟩ ∧
    checkExceptions 2 [⟨0, 1, 1, 1⟩, ⟨1, 0, 2, 2⟩] ≠ none ∧
    (∃ a b, checkExceptions 2 [⟨0, 1, 1, 1⟩, ⟨1, 0, 2, 2⟩] =
      some (Violation.duplicateException a b)) := by
  have hpair : sameUnorderedPair (⟨0, 1, 1, 1⟩ : GBException) ⟨1, 0, 2, 2⟩ :=
    Or.inr ⟨rfl, rfl⟩
  have h := claim_C6 2 [] [] [] ⟨0, 1, 1, 1⟩ ⟨1, 0, 2, 2⟩ hpair
  exact ⟨hpair, h.1, h.2.1 (by decide)⟩

/-!  Claim C7. -/

/-- C7: for a description with `nonbondedMethod = CutoffPeriodic` that
passes all earlier checks, validation fails if and only if the cutoff
exceeds half of some box vector's own principal component; for the
other two nonbonded methods the box is never read (the validator's
result is the same for every box). -/
theorem claim_C7 (f : GayBerneForce) (n : Nat) (box : PeriodicBox) :
    (f.nonbondedMethod = NonbondedMethod.CutoffPeriodic →
      checkParticleCount f n = none →
      checkSwitching f = none →
      checkParticles (f.particles.length : Int) f.particles = none →
      checkExceptions (f.particles.length : Int) f.exceptions = none →
      (validate f n box ≠ none ↔
        (f.cutoffDistance > (1/2 : Rat) * box.v0.x ∨
          f.cutoffDistance > (1/2 : Rat) * box.v1.y ∨
          f.cutoffDistance > (1/2 : Rat) * box.v2.z))) ∧
    (f.nonbondedMethod ≠ NonbondedMethod.CutoffPeriodic →
      ∀ box2 : PeriodicBox, validate f n box2 = validate f n box) := by
  constructor
  · intro hm h1 h2 h3 h4
    rw [validate_of_all_none box h1 h2 h3 h4]
    unfold checkPeriodicCutoff
    rw [if_pos hm]
    by_cases hc : f.cutoffDistance > (1/2 : Rat) * box.v0.x ∨
        f.cutoffDistance > (1/2 : Rat) * box.v1.y ∨
        f.cutoffDistance > (1/2 : Rat) * box.v2.z
    · rw [if_pos hc]
      exact ⟨fun _ => hc, fun _ h => Option.noConfusion h⟩
    · rw [if_neg hc]
      exact ⟨fun hn => absurd rfl hn, fun hcc => absurd hcc hc⟩
  · intro hm box2
    exact validate_congr rfl rfl rfl rfl
      (by unfold checkPeriodicCutoff; rw [if_neg hm, if_neg hm])

theorem claim_C7_witness :
    periodicForce.nonbondedMethod = NonbondedMethod.CutoffPeriodic ∧
    periodicForce.cutoffDistance > (1/2 : Rat) * box222.v0.x ∧
    validate periodicForce 1 box222 ≠ none := by
  refine ⟨rfl, by norm_num [periodicForce, box222], ?_⟩
  refine ((claim_C7 periodicForce 1 box222).1 rfl (by decide) (by decide)
    (by decide) (by decide)).mpr ?_
  exact Or.inl (by norm_num [periodicForce, box222])

/-!  Claim C8. -/

/-- C8: for every description that passes the particle-count check,
validation reports the switching-distance violation if and only if
switching is enabled and the switching distance is negative or at least
the cutoff distance; when switching is disabled the switching distance
is never examined (the validator's result is independent of it). -/
theorem claim_C8 (f : GayBerneForce) (n : Nat) (box : PeriodicBox) :
    (checkParticleCount f n = none →
      (validate f n box = some Violation.invalidSwitchingDistance ↔
        f.useSwitchingFunction = true ∧
          (f.switchingDistance < 0 ∨
            f.switchingDistance ≥ f.cutoffDistance))) ∧
    (f.useSwitchingFunction = false →
      ∀ s : Rat,
        validate { f with switchingDistance := s } n box =
          validate f n box) := by
  constructor
  · intro h1
    constructor
    · intro hv
      rcases validate_switch_source hv with hq | hq
      · rw [h1] at hq
        cases hq
      · obtain ⟨hu, hbad, _⟩ := checkSwitching_eq_some hq
        exact ⟨hu, hbad⟩
    · rintro ⟨hu, hbad⟩
      exact validate_of_switching_some box h1 (checkSwitching_of_bad hu hbad)
  · intro hu s
    refine validate_congr rfl ?_ rfl rfl rfl
    simp [checkSwitching, hu]

theorem claim_C8_witness :
    checkParticleCount switchBadForce 1 = none ∧
    validate switchBadForce 1 box111 = some Violation.invalidSwitchingDistance ∧
    validate { simpleValidForce with switchingDistance := 99 } 1 box111 =
      validate simpleValidForce 1 box111 := by
  refine ⟨by decide, ?_, ?_⟩
  · exact ((claim_C8 switchBadForce 1 box111).1 (by decide)).mpr
      ⟨rfl, by decide⟩
  · exact (claim_C8 simpleValidForce 1 box111).2 rfl 99

/-!  Claim C9. -/

/-- C9: every `updateParametersInContext` call on a Bound dispatcher
leaves the dispatcher exactly as it was (the kernel handle is neither
destroyed nor re-created, so it stays Bound), increments the context's
`systemChanged` notification count by exactly one, and its event trace
is the kernel parameter refresh followed by the single `systemChanged`
notification. -/
theorem claim_C9 (d : Dispatcher) (ctx : ContextState) (hbound : d.isBound) :
    (GayBerneForceImpl.updateParametersInContext d ctx).1 = d ∧
    (GayBerneForceImpl.updateParametersInContext d ctx).2.1.systemChangedCount =
      ctx.systemChangedCount + 1 ∧
    (GayBerneForceImpl.updateParametersInContext d ctx).2.2 =
      [UpdateEvent.refreshParameters, UpdateEvent.systemChanged] :=
  ⟨rfl, rfl, rfl⟩

theorem claim_C9_witness :
    boundOkDispatcher.isBound ∧
    (GayBerneForceImpl.updateParametersInContext boundOkDispatcher ctx0).1 =
      boundOkDispatcher ∧
    (GayBerneForceImpl.updateParametersInContext boundOkDispatcher
      ctx0).2.1.systemChangedCount = ctx0.systemChangedCount + 1 ∧
    (GayBerneForceImpl.updateParametersInContext boundOkDispatcher ctx0).2.2 =
      [UpdateEvent.refreshParameters, UpdateEvent.systemChanged] := by
  have hb : boundOkDispatcher.isBound := ⟨⟨2, true⟩, rfl, rfl⟩
  have h := claim_C9 boundOkDispatcher ctx0 hb
  exact ⟨hb, h.1, h.2.1, h.2.2⟩

/-!  Claim C10. -/

/-- C10: for a description whose nonbonded method is not CutoffPeriodic
and whose switching function is disabled, the validator never examines
the cutoff distance: its verdict is unchanged under any replacement of
`cutoffDistance`; in particular a negative cutoff distance passes
validation whenever all other invariants hold. -/
theorem claim_C10 (f : GayBerneForce) (n : Nat) (box : PeriodicBox) (c : Rat)
    (hm : f.nonbondedMethod ≠ NonbondedMethod.CutoffPeriodic)
    (hu : f.useSwitchingFunction = false) :
    validate { f with cutoffDistance := c } n box = validate f n box ∧
    (validate f n box = none →
      validate { f with cutoffDistance := c } n box = none) := by
  have key : validate { f with cutoffDistance := c } n box =
      validate f n box := by
    refine validate_congr rfl ?_ rfl rfl ?_
    · simp [checkSwitching, hu]
    · simp [checkPeriodicCutoff, hm]
  exact ⟨key, fun h => key.trans h⟩

theorem claim_C10_witness :
    simpleValidForce.nonbondedMethod ≠ NonbondedMethod.CutoffPeriodic ∧
    simpleValidForce.useSwitchingFunction = false ∧
    validate simpleValidForce 1 box111 = none ∧
    validate { simpleValidForce with cutoffDistance := -1 } 1 box111 = none := by
  refine ⟨by decide, rfl, by decide, ?_⟩
  exact (claim_C10 simpleValidForce 1 box111 (-1) (by decide) rfl).2 (by decide)
